import Mathlib

/-!
Verification development for the `redis-dataloader` module: a read-through
caching layer combining a DataLoader-style request coalescer with a
replicated redis store (write-capable primary `redisRW`, read-preferring
replica `redisRO`).

The shallow embedding below follows the TypeScript source
(`src/unnamed/part_000`, first document) and its compiled variant
(`src/lib/index.js`, first document).  The two variants differ only in the
guard applied before a miss result is queued for write-back; the embedding
is parameterized by that guard so both variants share one definition.

External library functions (`JSON.parse`, `JSON.stringify`) are modelled as
parameters (`jp`, `jstr`); a small honest fragment parser is provided for
concrete evaluation.
-/

namespace RedisDL

/-- JavaScript runtime values as they flow through the loader:
`undefined`, `null`, booleans, numbers, strings, and structured values
(objects/arrays).  A structured value is carried as an opaque tag: no code
path of the module inspects the inside of an object other than through the
external `JSON.stringify` (modelled as the parameter `jstr`). -/
inductive JS where
  | undef : JS
  | jsNull : JS
  | bool (b : Bool) : JS
  | num (n : Int) : JS
  | str (s : String) : JS
  | obj (tag : Nat) : JS
deriving DecidableEq, Repr

/-- `_.isObject` from lodash: true exactly for structured values
(objects, arrays, functions), false for `null` and all primitives. -/
def isObject : JS → Bool
  | .obj _ => true
  | _ => false

/-- A raw redis command reply (`RedisCommandRawReply`): a string, a number,
a Buffer (carried with its text decoding), or the null reply. -/
inductive Raw where
  | str (s : String) : Raw
  | num (n : Int) : Raw
  | buf (s : String) : Raw
  | nil : Raw
deriving DecidableEq, Repr

/-- The redis key/value state visible to this module: a map from full cache
keys to the stored string payloads.  (Redis stores strings; the module's
write path only ever writes strings.) -/
def Store : Type := String → Option String

/-- A `SET` issued by the write path: full key, payload, optional
expiry seconds (`EX`). -/
structure SetCmd where
  key : String
  val : String
  ex : Option Nat
deriving DecidableEq, Repr

/-- Writing one key into the store. -/
def update (st : Store) (k v : String) : Store :=
  fun k' => if k' = k then some v else st k'

/-- The raw reply a `GET`/`MGET` position produces for one key: the stored
string when present, the null reply when absent. -/
def rawAt (st : Store) (k : String) : Raw :=
  match st k with
  | some s => .str s
  | none => .nil

/-- `mGet` against a consistent store: one raw reply per key, aligned with
the input (§6 store-handle contract). -/
def mGetStore (st : Store) (ks : List String) : List Raw :=
  ks.map (fun k => rawAt st k)

/-- `errorMessage.includes('LOADING')` (from `isReplicaLoadingDataError`,
src/unnamed/part_000 lines 49-52): the marker substring test on the error
message.  Errors are modelled by their message strings
(`getErrorMessage`). -/
def isReplicaLoadingDataError (e : String) : Bool :=
  decide ("LOADING".data <:+: e.data)

/-- `parse` (src/unnamed/part_000 lines 54-64), the decode function:
`resp === '' || resp === null` gives `null`; a Buffer gives
`resp.toString()` (its text decoding, returned as a string); any other
string is passed to `JSON.parse` (the parameter `jp`, which may fail);
everything else gives `null`. -/
def parse (jp : String → Except String JS) : Raw → Except String JS
  | .str s => if s = "" then .ok .jsNull else jp s
  | .nil => .ok .jsNull
  | .buf s => .ok (.str s)
  | .num _ => .ok .jsNull

/-- `toString` (src/unnamed/part_000 lines 66-72), the encode function:
a structured value is serialized with `JSON.stringify` (the parameter
`jstr`); anything else becomes the empty string (the empty-marker
payload). -/
def toString (jstr : JS → String) (v : JS) : String :=
  if isObject v then jstr v else ""

/-- `makeKey` (src/unnamed/part_000 lines 74-80): the key-space prefix is
prepended with a `:` delimiter when it is non-empty (JS truthiness of a
string), else the normalized key stands alone. -/
def makeKey (keySpace : String) (key : κ) (cacheKeyFn : κ → String) : String :=
  if keySpace = "" then cacheKeyFn key else keySpace ++ ":" ++ cacheKeyFn key

/-- The options bag: `expire` (0 models an absent/falsy `opt.expire`) and
the key-normalization function. -/
structure Opt (κ : Type) where
  expire : Nat
  cacheKeyFn : κ → String

/-- Sequencing a list of settled promises as `Promise.all` does in the
deterministic sequential model: all fulfilled gives the list of values,
otherwise the first rejection (in list order) wins. -/
def seqExcept : List (Except String α) → Except String (List α)
  | [] => .ok []
  | .error e :: _ => .error e
  | .ok a :: rest =>
    match seqExcept rest with
    | .error e => .error e
    | .ok as => .ok (a :: as)

/-- `results.map(parse)`: eager map whose first thrown decode error (lowest
index) propagates. -/
def mapParse (jp : String → Except String JS) (rs : List Raw) : Except String (List JS) :=
  seqExcept (rs.map (parse jp))

/-- An honest fragment of the host `JSON.parse`, used for concrete
evaluation: `null`, `true`, `false` and plain decimal integer literals
parse as the host function would; every other input is rejected as
malformed (as the host function rejects, among others, the empty
string). -/
def jsonParseFrag (s : String) : Except String JS :=
  if s = "null" then .ok .jsNull
  else if s = "true" then .ok (.bool true)
  else if s = "false" then .ok (.bool false)
  else if s ≠ "" ∧ s.data.all (fun c => c.isDigit) then
    .ok (.num (s.data.foldl (fun n c => 10 * n + (c.toNat - 48 : Int)) 0))
  else .error ("Unexpected token in JSON: " ++ s)

deriving instance DecidableEq for Except

/-- `rMGet` (src/unnamed/part_000 lines 147-162): derive the full cache
keys, issue a multi-get against the replica handle `roMGet` and parse every
reply (both inside the `try`); on an error whose message contains the
`LOADING` marker, retry the same derived keys against the primary handle
`rwMGet` and parse (outside any `try`); any other error is re-thrown. -/
def rMGet (jp : String → Except String JS)
    (roMGet rwMGet : List String → Except String (List Raw))
    (keySpace : String) (keys : List κ) (opt : Opt κ) : Except String (List JS) :=
  let cacheKeys := keys.map (fun k => makeKey keySpace k opt.cacheKeyFn)
  match (match roMGet cacheKeys with
         | .error e => .error e
         | .ok rs => mapParse jp rs : Except String (List JS)) with
  | .ok vs => .ok vs
  | .error e =>
    if isReplicaLoadingDataError e then
      match rwMGet cacheKeys with
      | .error e2 => .error e2
      | .ok rs => mapParse jp rs
    else .error e

/-- `rPipelineSet` (src/unnamed/part_000 lines 116-140): one `SET` per
entry against the primary, with `EX opt.expire` when `opt.expire` is
truthy, all queued into a single pipeline. -/
def rPipelineSet (jstr : JS → String) (keySpace : String)
    (data : List (κ × JS)) (opt : Opt κ) : List SetCmd :=
  data.map (fun item =>
    ⟨makeKey keySpace item.1 opt.cacheKeyFn, toString jstr item.2,
      if opt.expire ≠ 0 then some opt.expire else none⟩)

/-- The second `.then` of the miss branch (src/unnamed/part_000 line 203):
a fetched value of `''` or `undefined` is normalized to `null` in the
returned result. -/
def normalizeMiss (r : JS) : JS :=
  if r = .str "" ∨ r = .undef then .jsNull else r

/-- The write-back guard of the TypeScript variant (src/unnamed/part_000
line 199): every resolved miss value is pushed onto `dataToStore`. -/
def guardTS (_ : JS) : Bool := true

/-- The write-back guard of the compiled variant (src/lib/index.js lines
138-140): a miss value is pushed onto `dataToStore` only when it is not
`''`, not `undefined` and not `null`. -/
def guardJS (resp : JS) : Bool :=
  resp ≠ .str "" && resp ≠ .undef && resp ≠ .jsNull

/-- The miss branch (src/unnamed/part_000 lines 194-204): invoke the user
fetch function; on success push `(key, resp)` onto the write-back list when
the variant's guard `g` accepts the raw response, and resolve to the
normalized response; a fetch rejection rejects this position. -/
def missFetch (g : JS → Bool) (fetch : κ → Except String JS) (k : κ) :
    Except String JS × List (κ × JS) :=
  match fetch k with
  | .error e => (.error e, [])
  | .ok resp => (.ok (normalizeMiss resp), if g resp then [(k, resp)] else [])

/-- One position of the batch loop (src/unnamed/part_000 lines 188-209):
`result === ''` resolves to `null` without fetching; `result === null`
takes the miss branch; anything else is a hit resolving to the parsed
value. -/
def stepPos (g : JS → Bool) (fetch : κ → Except String JS) (k : κ) (v : JS) :
    Except String JS × List (κ × JS) :=
  if v = .str "" then (.ok .jsNull, [])
  else if v = .jsNull then missFetch g fetch k
  else (.ok v, [])

/-- The whole batch loop: per-position promises in input order, and the
`dataToStore` pushes collected in that same (deterministic, sequential)
order. -/
def runPositions (g : JS → Bool) (fetch : κ → Except String JS) :
    List (κ × JS) → List (Except String JS) × List (κ × JS)
  | [] => ([], [])
  | kv :: rest =>
    let p := stepPos g fetch kv.1 kv.2
    let ps := runPositions g fetch rest
    (p.1 :: ps.1, p.2 ++ ps.2)

/-- The observable outcome of one invocation of the DataLoader batch
function: the settled `Promise.all` response, the `dataToStore` list, the
pipelined multi-sets that were dispatched, and the diagnostics message of a
swallowed pipeline failure. -/
structure BatchOut (κ : Type) where
  response : Except String (List JS)
  writeback : List (κ × JS)
  pipelines : List (List SetCmd)
  swallowed : Option String

/-- The DataLoader batch function (src/unnamed/part_000 lines 181-224):
multi-get and parse all keys (`rMGet` over a consistent store `st`),
resolve every position (hit, empty-marker, or miss with fetch), await all
of them, and — only when every position fulfilled and `dataToStore` is
non-empty — dispatch exactly one pipelined multi-set whose execution
outcome `pexec` is caught and logged, never propagated. -/
def fillBatch (g : JS → Bool) (jp : String → Except String JS)
    (jstr : JS → String) (fetch : κ → Except String JS)
    (pexec : List SetCmd → Except String Unit)
    (st : Store) (keySpace : String) (keys : List κ) (opt : Opt κ) :
    BatchOut κ :=
  let cacheKeys := keys.map (fun k => makeKey keySpace k opt.cacheKeyFn)
  match mapParse jp (mGetStore st cacheKeys) with
  | .error e => ⟨.error e, [], [], none⟩
  | .ok parsed =>
    let ps := runPositions g fetch (keys.zip parsed)
    match seqExcept ps.1 with
    | .error e => ⟨.error e, ps.2, [], none⟩
    | .ok vals =>
      if ps.2.isEmpty then ⟨.ok vals, ps.2, [], none⟩
      else
        let cmds := rPipelineSet jstr keySpace ps.2 opt
        match pexec cmds with
        | .ok _ => ⟨.ok vals, ps.2, [cmds], none⟩
        | .error reason => ⟨.ok vals, ps.2, [cmds], some reason⟩

/-- The outcome of `rSetAndGet`: the value the promise settles with, the
resulting primary store state, and the `EXPIRE` command issued with the
write (if any). -/
structure SetAndGetOut where
  result : Except String JS
  store : Store
  expired : Option (String × Nat)

/-- `rSetAndGet` (src/unnamed/part_000 lines 82-114): serialize the value,
`SET` it on the primary in one multi with an `EXPIRE` when `opt.expire` is
truthy, then read the key back (replica `GET`, modelled over the threaded
consistent state, with `roErr` injecting a replica failure) and return the
parsed reply; on a `LOADING` replica failure the already-queued primary
multi is extended with the `GET` and re-executed, and the last reply — the
`GET` — is parsed; any other replica error is re-thrown. -/
def rSetAndGet (jp : String → Except String JS) (jstr : JS → String)
    (keySpace : String) (key : κ) (rawVal : JS) (opt : Opt κ)
    (st : Store) (roErr : Option String) : SetAndGetOut :=
  let val := toString jstr rawVal
  let fullKey := makeKey keySpace key opt.cacheKeyFn
  let st' := update st fullKey val
  let expCmd := if opt.expire ≠ 0 then some (fullKey, opt.expire) else none
  match roErr with
  | none => ⟨parse jp (rawAt st' fullKey), st', expCmd⟩
  | some e =>
    if isReplicaLoadingDataError e then
      ⟨parse jp (rawAt (update st' fullKey val) fullKey), update st' fullKey val, expCmd⟩
    else ⟨.error e, st', expCmd⟩

/-- `loadMany` (src/unnamed/part_000 lines 231-235): a falsy `keys`
argument rejects with the `TypeError`; otherwise every key is loaded by its
own independent promise `f` and the results are joined with
`Promise.all`. -/
def loadMany (f : κ → Except String JS) : Option (List κ) → Except String (List JS)
  | none => .error "keys parameter is required"
  | some keys => seqExcept (keys.map f)

/-- The per-key resolution the batch function is specified to produce at
every position: decode the stored payload at the key's derived cache key
and resolve it as a hit, an empty-marker, or a miss.  Used to state that
the batch response mirrors the input order. -/
def specResolveKey (g : JS → Bool) (jp : String → Except String JS)
    (fetch : κ → Except String JS) (st : Store) (keySpace : String)
    (opt : Opt κ) (k : κ) : Except String JS :=
  match parse jp (rawAt st (makeKey keySpace k opt.cacheKeyFn)) with
  | .error e => .error e
  | .ok v => (stepPos g fetch k v).1

theorem seqExcept_ok_length {l : List (Except String α)} {rs : List α}
    (h : seqExcept l = .ok rs) : rs.length = l.length := by
  induction l generalizing rs with
  | nil =>
    simp only [seqExcept] at h
    injection h with h2
    subst h2
    rfl
  | cons x xs ih =>
    cases x with
    | error e => exact Except.noConfusion h
    | ok a =>
      simp only [seqExcept] at h
      cases hx : seqExcept xs with
      | error e => rw [hx] at h; exact Except.noConfusion h
      | ok as =>
        rw [hx] at h
        injection h with h2
        subst h2
        simp [ih hx]

theorem seqExcept_ok_get {l : List (Except String α)} {rs : List α}
    (h : seqExcept l = .ok rs) :
    ∀ i (hi : i < l.length) (hi' : i < rs.length), l[i] = .ok rs[i] := by
  induction l generalizing rs with
  | nil => intro i hi _; exact absurd hi (by simp)
  | cons x xs ih =>
    cases x with
    | error e => exact Except.noConfusion h
    | ok a =>
      simp only [seqExcept] at h
      cases hx : seqExcept xs with
      | error e => rw [hx] at h; exact Except.noConfusion h
      | ok as =>
        rw [hx] at h
        injection h with h2
        subst h2
        intro i hi hi'
        cases i with
        | zero => rfl
        | succ n =>
          simp only [List.getElem_cons_succ]
          exact ih hx n (by simpa using hi) (by simpa using hi')

theorem runPositions_fst_length (g : JS → Bool) (fetch : κ → Except String JS)
    (l : List (κ × JS)) : (runPositions g fetch l).1.length = l.length := by
  induction l with
  | nil => rfl
  | cons kv rest ih => simp [runPositions, ih]

theorem runPositions_fst_get (g : JS → Bool) (fetch : κ → Except String JS)
    (l : List (κ × JS)) :
    ∀ i (hi : i < l.length) (hi' : i < (runPositions g fetch l).1.length),
      (runPositions g fetch l).1[i] = (stepPos g fetch l[i].1 l[i].2).1 := by
  induction l with
  | nil => intro i hi _; exact absurd hi (by simp)
  | cons kv rest ih =>
    intro i hi hi'
    cases i with
    | zero => rfl
    | succ n =>
      simp only [runPositions, List.getElem_cons_succ]
      exact ih n (by simpa using hi)
        (by simpa [runPositions_fst_length] using Nat.lt_of_succ_lt_succ hi')

theorem fillBatch_response_eq (g : JS → Bool) (jp : String → Except String JS)
    (jstr : JS → String) (fetch : κ → Except String JS)
    (pexec : List SetCmd → Except String Unit) (st : Store)
    (keySpace : String) (keys : List κ) (opt : Opt κ) :
    (fillBatch g jp jstr fetch pexec st keySpace keys opt).response =
      (match mapParse jp (mGetStore st (keys.map (fun k => makeKey keySpace k opt.cacheKeyFn))) with
       | .error e => .error e
       | .ok parsed => seqExcept (runPositions g fetch (keys.zip parsed)).1) := by
  cases hp : mapParse jp (mGetStore st (keys.map (fun k => makeKey keySpace k opt.cacheKeyFn))) with
  | error e => simp [fillBatch, hp]
  | ok parsed =>
    cases hseq : seqExcept (runPositions g fetch (keys.zip parsed)).1 with
    | error e => simp [fillBatch, hp, hseq]
    | ok vals =>
      by_cases hw : (runPositions g fetch (keys.zip parsed)).2.isEmpty
      · simp [fillBatch, hp, hseq, hw]
      · cases hx : pexec (rPipelineSet jstr keySpace (runPositions g fetch (keys.zip parsed)).2 opt) with
        | ok u => simp [fillBatch, hp, hseq, hw, hx]
        | error r => simp [fillBatch, hp, hseq, hw, hx]

theorem fillBatch_writeback_eq (g : JS → Bool) (jp : String → Except String JS)
    (jstr : JS → String) (fetch : κ → Except String JS)
    (pexec : List SetCmd → Except String Unit) (st : Store)
    (keySpace : String) (keys : List κ) (opt : Opt κ) :
    (fillBatch g jp jstr fetch pexec st keySpace keys opt).writeback =
      (match mapParse jp (mGetStore st (keys.map (fun k => makeKey keySpace k opt.cacheKeyFn))) with
       | .error _ => []
       | .ok parsed => (runPositions g fetch (keys.zip parsed)).2) := by
  cases hp : mapParse jp (mGetStore st (keys.map (fun k => makeKey keySpace k opt.cacheKeyFn))) with
  | error e => simp [fillBatch, hp]
  | ok parsed =>
    cases hseq : seqExcept (runPositions g fetch (keys.zip parsed)).1 with
    | error e => simp [fillBatch, hp, hseq]
    | ok vals =>
      by_cases hw : (runPositions g fetch (keys.zip parsed)).2.isEmpty
      · simp [fillBatch, hp, hseq, hw]
      · cases hx : pexec (rPipelineSet jstr keySpace (runPositions g fetch (keys.zip parsed)).2 opt) with
        | ok u => simp [fillBatch, hp, hseq, hw, hx]
        | error r => simp [fillBatch, hp, hseq, hw, hx]

theorem fillBatch_pipelines_eq (g : JS → Bool) (jp : String → Except String JS)
    (jstr : JS → String) (fetch : κ → Except String JS)
    (pexec : List SetCmd → Except String Unit) (st : Store)
    (keySpace : String) (keys : List κ) (opt : Opt κ) :
    (fillBatch g jp jstr fetch pexec st keySpace keys opt).pipelines =
      (match mapParse jp (mGetStore st (keys.map (fun k => makeKey keySpace k opt.cacheKeyFn))) with
       | .error _ => []
       | .ok parsed =>
         match seqExcept (runPositions g fetch (keys.zip parsed)).1 with
         | .error _ => []
         | .ok _ =>
           if (runPositions g fetch (keys.zip parsed)).2.isEmpty then []
           else [rPipelineSet jstr keySpace (runPositions g fetch (keys.zip parsed)).2 opt]) := by
  cases hp : mapParse jp (mGetStore st (keys.map (fun k => makeKey keySpace k opt.cacheKeyFn))) with
  | error e => simp [fillBatch, hp]
  | ok parsed =>
    cases hseq : seqExcept (runPositions g fetch (keys.zip parsed)).1 with
    | error e => simp [fillBatch, hp, hseq]
    | ok vals =>
      by_cases hw : (runPositions g fetch (keys.zip parsed)).2.isEmpty
      · simp [fillBatch, hp, hseq, hw]
      · cases hx : pexec (rPipelineSet jstr keySpace (runPositions g fetch (keys.zip parsed)).2 opt) with
        | ok u => simp [fillBatch, hp, hseq, hw, hx]
        | error r => simp [fillBatch, hp, hseq, hw, hx]

/-- C9: two Cache Facade instances with different key-space strings never
derive colliding full cache keys from identical application keys under the
same key-normalization function, including when one key-space is the empty
string. -/
theorem makeKey_keyspace_disjoint (ks₁ ks₂ : String) (f : κ → String) (k : κ)
    (h : ks₁ ≠ ks₂) : makeKey ks₁ k f ≠ makeKey ks₂ k f := by
  intro heq
  unfold makeKey at heq
  by_cases h1 : ks₁ = ""
  · by_cases h2 : ks₂ = ""
    · exact h (h1.trans h2.symm)
    · rw [if_pos h1, if_neg h2] at heq
      have hlen := congrArg String.length heq
      simp only [String.length_append] at hlen
      have : ks₂.length = 0 := by omega
      refine h2 ?_
      cases ks₂ with | mk l =>
      have hl : l = [] := by simpa [String.length, List.length_eq_zero] using this
      exact congrArg String.mk hl
  · by_cases h2 : ks₂ = ""
    · rw [if_neg h1, if_pos h2] at heq
      have hlen := congrArg String.length heq
      simp only [String.length_append] at hlen
      have : ks₁.length = 0 := by omega
      refine h1 ?_
      cases ks₁ with | mk l =>
      have hl : l = [] := by simpa [String.length, List.length_eq_zero] using this
      exact congrArg String.mk hl
    · rw [if_neg h1, if_neg h2] at heq
      have hdata := congrArg String.data heq
      simp only [String.data_append] at hdata
      rw [List.append_assoc, List.append_assoc] at hdata
      have h3 : ks₁.data = ks₂.data := by
        have hl : ks₁.data.length = ks₂.data.length := by
          have := congrArg List.length hdata
          simp only [List.length_append] at this
          omega
        exact List.append_inj_left hdata hl
      apply h
      cases ks₁ with | mk l₁ =>
      cases ks₂ with | mk l₂ =>
      exact congrArg String.mk (by simpa using h3)

/-- C2: when the replica multi-get over the derived cache keys fails, a
`LOADING`-marked error causes the identical derived keys to be retried
against the primary handle with the parsed results returned, while any
other error propagates unchanged and the outcome is the same whatever the
primary would have answered (the primary is not consulted). -/
theorem rMGet_replica_fallback (jp : String → Except String JS)
    (roMGet rwMGet : List String → Except String (List Raw))
    (keySpace : String) (keys : List κ) (opt : Opt κ) (e : String)
    (he : roMGet (keys.map (fun k => makeKey keySpace k opt.cacheKeyFn)) = .error e) :
    (isReplicaLoadingDataError e = true →
       rMGet jp roMGet rwMGet keySpace keys opt =
         (match rwMGet (keys.map (fun k => makeKey keySpace k opt.cacheKeyFn)) with
          | .error e2 => .error e2
          | .ok rs => mapParse jp rs) ∧
       ∀ rs, rwMGet (keys.map (fun k => makeKey keySpace k opt.cacheKeyFn)) = .ok rs →
         rMGet jp roMGet rwMGet keySpace keys opt = mapParse jp rs) ∧
    (isReplicaLoadingDataError e = false →
       rMGet jp roMGet rwMGet keySpace keys opt = .error e ∧
       ∀ rwMGet₂, rMGet jp roMGet rwMGet₂ keySpace keys opt = .error e) := by
  constructor
  · intro hl
    have hmain : rMGet jp roMGet rwMGet keySpace keys opt =
        (match rwMGet (keys.map (fun k => makeKey keySpace k opt.cacheKeyFn)) with
         | .error e2 => .error e2
         | .ok rs => mapParse jp rs) := by
      simp [rMGet, he, hl]
    refine ⟨hmain, ?_⟩
    intro rs hrs
    rw [hmain, hrs]
  · intro hl
    refine ⟨by simp [rMGet, he, hl], fun rwMGet₂ => by simp [rMGet, he, hl]⟩

/-- C8: `loadMany` rejects with the invalid-argument `TypeError` on a falsy
`keys`; otherwise each key is resolved by its own independent promise
(position `i` depends only on `f` at `keys[i]`): when every key's load
fulfils, the join fulfils with the values in key order, the aggregate
outcome is a function of the per-key outcomes alone, and when a key's load
fails (all keys before it fulfilling) the join rejects with exactly that
key's own error, whatever the keys after it resolve to. -/
theorem loadMany_spec (f : κ → Except String JS) :
    loadMany f none = .error "keys parameter is required" ∧
    (∀ (keys : List κ) (vs : κ → JS), (∀ k ∈ keys, f k = .ok (vs k)) →
       loadMany f (some keys) = .ok (keys.map vs)) ∧
    (∀ (keys : List κ) (g : κ → Except String JS), (∀ k ∈ keys, f k = g k) →
       loadMany f (some keys) = loadMany g (some keys)) ∧
    (∀ (pre post : List κ) (k : κ) (e : String),
       (∀ k' ∈ pre, ∃ v, f k' = .ok v) → f k = .error e →
       loadMany f (some (pre ++ k :: post)) = .error e) := by
  refine ⟨rfl, ?_, ?_, ?_⟩
  · intro keys vs hok
    induction keys with
    | nil => rfl
    | cons x xs ih =>
      have hx := hok x (by simp)
      have hxs := ih (fun k hk => hok k (by simp [hk]))
      simp only [loadMany] at hxs
      simp [loadMany, seqExcept, hx, hxs]
  · intro keys g hag
    simp only [loadMany]
    rw [List.map_congr_left hag]
  · intro pre post k e hpre hk
    induction pre with
    | nil => simp [loadMany, seqExcept, hk]
    | cons x xs ih =>
      obtain ⟨v, hv⟩ := hpre x (by simp)
      have hxs := ih (fun k' hk' => hpre k' (by simp [hk']))
      simp only [loadMany, List.map_append, List.map_cons] at hxs
      simp [loadMany, seqExcept, hv, hxs]

/-- C7: `rSetAndGet` stores the serialized value at the derived key on the
primary, issues the expiry alongside the write exactly when `opt.expire` is
truthy, and — whether the read-back hits the healthy replica or falls back
to the primary on a `LOADING` replica error — settles with the decoded form
of the payload that was just stored. -/
theorem rSetAndGet_read_after_write (jp : String → Except String JS)
    (jstr : JS → String) (keySpace : String) (key : κ) (rawVal : JS)
    (opt : Opt κ) (st : Store) (roErr : Option String)
    (h : roErr = none ∨ ∃ e, roErr = some e ∧ isReplicaLoadingDataError e = true) :
    (rSetAndGet jp jstr keySpace key rawVal opt st roErr).result =
      parse jp (.str (toString jstr rawVal)) ∧
    (rSetAndGet jp jstr keySpace key rawVal opt st roErr).store
      (makeKey keySpace key opt.cacheKeyFn) = some (toString jstr rawVal) ∧
    (rSetAndGet jp jstr keySpace key rawVal opt st roErr).expired =
      (if opt.expire ≠ 0 then some (makeKey keySpace key opt.cacheKeyFn, opt.expire)
       else none) := by
  rcases h with h | ⟨e, he, hl⟩
  · subst h
    refine ⟨?_, ?_, rfl⟩
    · simp [rSetAndGet, rawAt, update]
    · simp [rSetAndGet, update]
  · subst he
    refine ⟨?_, ?_, ?_⟩
    · simp [rSetAndGet, hl, rawAt, update]
    · simp [rSetAndGet, hl, update]
    · simp [rSetAndGet, hl]

/-- C1: whenever the batch function's `Promise.all` fulfils, the returned
sequence has exactly one entry per input key, and the entry at every
position is the resolution of the key at that same position (hit,
empty-marker, or fetched miss) — the output order mirrors the input order
regardless of which keys were hits and which required the fetch
function. -/
theorem fillBatch_ordered (g : JS → Bool) (jp : String → Except String JS)
    (jstr : JS → String) (fetch : κ → Except String JS)
    (pexec : List SetCmd → Except String Unit) (st : Store)
    (keySpace : String) (keys : List κ) (opt : Opt κ) (rs : List JS)
    (h : (fillBatch g jp jstr fetch pexec st keySpace keys opt).response = .ok rs) :
    rs.length = keys.length ∧
    ∀ i (hi : i < keys.length) (hi' : i < rs.length),
      Except.ok rs[i] = specResolveKey g jp fetch st keySpace opt keys[i] := by
  rw [fillBatch_response_eq] at h
  cases hp : mapParse jp (mGetStore st (keys.map (fun k => makeKey keySpace k opt.cacheKeyFn))) with
  | error e => rw [hp] at h; exact Except.noConfusion h
  | ok parsed =>
    rw [hp] at h
    simp only [mapParse] at hp
    have hplen : parsed.length = keys.length := by
      have h1 := seqExcept_ok_length hp
      simpa [mGetStore] using h1
    have hzl : (keys.zip parsed).length = keys.length := by
      simp [List.length_zip, hplen]
    have hrl : rs.length = keys.length := by
      have h1 := seqExcept_ok_length h
      rw [h1, runPositions_fst_length, hzl]
    refine ⟨hrl, ?_⟩
    intro i hi hi'
    have hiz : i < (keys.zip parsed).length := by rw [hzl]; exact hi
    have hir : i < (runPositions g fetch (keys.zip parsed)).1.length := by
      rw [runPositions_fst_length]; exact hiz
    have h2 := seqExcept_ok_get h i hir hi'
    have h3 := runPositions_fst_get g fetch (keys.zip parsed) i hiz hir
    have hip : i < parsed.length := by rw [hplen]; exact hi
    have hzip : (keys.zip parsed)[i] = (keys[i], parsed[i]) := List.getElem_zip ..
    have him : i < ((mGetStore st (keys.map (fun k => makeKey keySpace k opt.cacheKeyFn))).map (parse jp)).length := by
      simpa [mGetStore] using hi
    have h4 := seqExcept_ok_get hp i him hip
    simp only [List.getElem_map, mGetStore] at h4
    calc Except.ok rs[i]
        = (runPositions g fetch (keys.zip parsed)).1[i] := h2.symm
      _ = (stepPos g fetch (keys.zip parsed)[i].1 (keys.zip parsed)[i].2).1 := h3
      _ = (stepPos g fetch keys[i] parsed[i]).1 := by rw [hzip]
      _ = specResolveKey g jp fetch st keySpace opt keys[i] := by
          simp [specResolveKey, h4]

/-- C3: when the batch fulfils and at least one miss produced a write-back
entry, exactly one pipelined multi-set is dispatched, it carries one `SET`
per write-back entry (covering them all), and the batch's response and
write-back list are identical whatever the pipeline execution outcome — a
pipelined-write failure is swallowed and can never surface as a rejection
of the batch promise. -/
theorem fillBatch_single_pipeline (g : JS → Bool) (jp : String → Except String JS)
    (jstr : JS → String) (fetch : κ → Except String JS)
    (pexec : List SetCmd → Except String Unit) (st : Store)
    (keySpace : String) (keys : List κ) (opt : Opt κ) (rs : List JS)
    (hr : (fillBatch g jp jstr fetch pexec st keySpace keys opt).response = .ok rs)
    (hw : (fillBatch g jp jstr fetch pexec st keySpace keys opt).writeback ≠ []) :
    (fillBatch g jp jstr fetch pexec st keySpace keys opt).pipelines =
      [rPipelineSet jstr keySpace
        (fillBatch g jp jstr fetch pexec st keySpace keys opt).writeback opt] ∧
    (rPipelineSet jstr keySpace
      (fillBatch g jp jstr fetch pexec st keySpace keys opt).writeback opt).length =
      (fillBatch g jp jstr fetch pexec st keySpace keys opt).writeback.length ∧
    ∀ pexec' : List SetCmd → Except String Unit,
      (fillBatch g jp jstr fetch pexec' st keySpace keys opt).response = .ok rs ∧
      (fillBatch g jp jstr fetch pexec' st keySpace keys opt).writeback =
        (fillBatch g jp jstr fetch pexec st keySpace keys opt).writeback := by
  cases hp : mapParse jp (mGetStore st (keys.map (fun k => makeKey keySpace k opt.cacheKeyFn))) with
  | error e =>
    rw [fillBatch_response_eq, hp] at hr
    exact absurd hr (by simp)
  | ok parsed =>
    have hseq : seqExcept (runPositions g fetch (keys.zip parsed)).1 = .ok rs := by
      rw [fillBatch_response_eq, hp] at hr; exact hr
    have hwb : (fillBatch g jp jstr fetch pexec st keySpace keys opt).writeback =
        (runPositions g fetch (keys.zip parsed)).2 := by
      rw [fillBatch_writeback_eq, hp]
    have hne : (runPositions g fetch (keys.zip parsed)).2.isEmpty = false := by
      rw [hwb] at hw
      simpa [List.isEmpty_iff] using hw
    refine ⟨?_, ?_, ?_⟩
    · rw [fillBatch_pipelines_eq, hp, hwb]
      simp [hseq, hne]
    · simp [rPipelineSet]
    · intro pexec'
      constructor
      · rw [fillBatch_response_eq, hp]; exact hseq
      · rw [fillBatch_writeback_eq, hp]; exact hwb.symm

/-- C4 counterexample: under the compiled variant's write-back guard
(src/lib/index.js lines 138-140), a cache miss whose fetch result is
exactly `null` resolves the batch position to `null` but produces no
write-back entry and dispatches no pipeline — contradicting the claim that
a `null` fetch result "is still written back (so the store afterwards
holds the empty-marker for that key rather than remaining absent)". -/
theorem null_miss_not_written_back :
    (fillBatch guardJS jsonParseFrag (fun _ => "") (fun _ => .ok .jsNull)
      (fun _ => .ok ()) (fun _ => none) "u" ["k"] ⟨0, id⟩).response = .ok [.jsNull] ∧
    (fillBatch guardJS jsonParseFrag (fun _ => "") (fun _ => .ok .jsNull)
      (fun _ => .ok ()) (fun _ => none) "u" ["k"] ⟨0, id⟩).writeback = [] ∧
    (fillBatch guardJS jsonParseFrag (fun _ => "") (fun _ => .ok .jsNull)
      (fun _ => .ok ()) (fun _ => none) "u" ["k"] ⟨0, id⟩).pipelines = [] :=
  ⟨rfl, rfl, rfl⟩

/-- C4 (amended): for every cache miss under the compiled variant's guard,
a fetch result of `""` or `undefined` is normalized to `null` in the batch
result and omitted from the write-back entries; a fetch result of exactly
`null` is returned as `null` and is likewise omitted from the write-back
entries (the key stays absent in the store); any other fetch result is
returned as-is and queued for write-back. -/
theorem miss_normalization_writeback (jp : String → Except String JS)
    (jstr : JS → String) (pexec : List SetCmd → Except String Unit)
    (st : Store) (keySpace : String) (opt : Opt κ) (k : κ)
    (fetch : κ → Except String JS) (r : JS)
    (habs : st (makeKey keySpace k opt.cacheKeyFn) = none)
    (hf : fetch k = .ok r) :
    ((r = .str "" ∨ r = .undef) →
       (fillBatch guardJS jp jstr fetch pexec st keySpace [k] opt).response = .ok [.jsNull] ∧
       (fillBatch guardJS jp jstr fetch pexec st keySpace [k] opt).writeback = []) ∧
    (r = .jsNull →
       (fillBatch guardJS jp jstr fetch pexec st keySpace [k] opt).response = .ok [.jsNull] ∧
       (fillBatch guardJS jp jstr fetch pexec st keySpace [k] opt).writeback = []) ∧
    (r ≠ .str "" → r ≠ .undef → r ≠ .jsNull →
       (fillBatch guardJS jp jstr fetch pexec st keySpace [k] opt).response = .ok [r] ∧
       (fillBatch guardJS jp jstr fetch pexec st keySpace [k] opt).writeback = [(k, r)]) := by
  have hresp := fillBatch_response_eq guardJS jp jstr fetch pexec st keySpace [k] opt
  have hwb := fillBatch_writeback_eq guardJS jp jstr fetch pexec st keySpace [k] opt
  simp only [List.map_cons, List.map_nil, mGetStore, rawAt, habs, mapParse, List.map,
    parse, seqExcept, List.zip_cons_cons, List.zip_nil_right, runPositions, stepPos,
    missFetch, hf] at hresp hwb
  refine ⟨?_, ?_, ?_⟩
  · rintro (h | h) <;> subst h <;>
      simp [hresp, hwb, normalizeMiss, guardJS, seqExcept]
  · intro h; subst h
    simp [hresp, hwb, normalizeMiss, guardJS, seqExcept]
  · intro h1 h2 h3
    simp [hresp, hwb, normalizeMiss, guardJS, seqExcept, h1, h2, h3]

/-- C5: the claim states that a position whose multi-get result is the
stored empty-marker (the empty string) resolves to `null` without invoking
the user fetch function.  The code violates this: `rMGet` maps every raw
reply through `parse`, which turns the stored `''` into `null`, so the
batch loop's `result === ''` branch is unreachable and the position takes
the miss branch instead — here the store holds `''` at `u:k`, yet the
batch resolves to the freshly fetched `7` and queues the key for
write-back again. -/
theorem empty_marker_position_refetches :
    parse jsonParseFrag (.str "") = .ok .jsNull ∧
    (fillBatch guardTS jsonParseFrag (fun _ => "") (fun _ => .ok (.num 7))
      (fun _ => .ok ()) (fun s => if s = "u:k" then some "" else none)
      "u" ["k"] ⟨0, id⟩).response = .ok [.num 7] ∧
    (fillBatch guardTS jsonParseFrag (fun _ => "") (fun _ => .ok (.num 7))
      (fun _ => .ok ()) (fun s => if s = "u:k" then some "" else none)
      "u" ["k"] ⟨0, id⟩).writeback = [("k", .num 7)] ∧
    (Except.ok [JS.num 7] : Except String (List JS)) ≠ .ok [.jsNull] :=
  ⟨rfl, rfl, rfl, by decide⟩

/-- C6 counterexample: the decode function maps a binary (Buffer) payload
to its text decoding and returns that string as the result WITHOUT JSON
parsing it: for the buffer holding `1`, the code yields the string `"1"`,
while text decoding followed by JSON parsing would yield the number 1. -/
theorem buffer_payload_not_json_parsed :
    parse jsonParseFrag (.buf "1") = .ok (.str "1") ∧
    jsonParseFrag "1" = .ok (.num 1) ∧
    (Except.ok (JS.str "1") : Except String JS) ≠ .ok (.num 1) :=
  ⟨rfl, by decide, by decide⟩

/-- C6 (amended): the decode function maps the empty-marker and the absent
(null) reply to `null`, maps a binary (Buffer) payload to its text decoding
returned as a plain string (it is NOT JSON-parsed), JSON-parses any other
non-empty string directly, maps any other reply shape to `null`, and on
malformed JSON the decode error propagates to the caller of the batch
operation rather than being swallowed. -/
theorem parse_decode_spec (jp : String → Except String JS) :
    parse jp (.str "") = .ok .jsNull ∧
    parse jp .nil = .ok .jsNull ∧
    (∀ s, parse jp (.buf s) = .ok (.str s)) ∧
    (∀ s, s ≠ "" → parse jp (.str s) = jp s) ∧
    (∀ n, parse jp (.num n) = .ok .jsNull) ∧
    (∀ (g : JS → Bool) (jstr : JS → String) (fetch : κ → Except String JS)
       (pexec : List SetCmd → Except String Unit) (st : Store)
       (keySpace : String) (opt : Opt κ) (k : κ) (s e : String),
       st (makeKey keySpace k opt.cacheKeyFn) = some s → jp s = .error e → s ≠ "" →
       (fillBatch g jp jstr fetch pexec st keySpace [k] opt).response = .error e) := by
  refine ⟨rfl, rfl, fun s => rfl, fun s h => by simp [parse, h], fun n => rfl, ?_⟩
  intro g jstr fetch pexec st keySpace opt k s e hst hjp hs
  rw [fillBatch_response_eq]
  simp [mGetStore, rawAt, hst, mapParse, parse, hs, hjp, seqExcept]

/-- C10 counterexample: the miss write-back of the primitive value 42
stores only the empty-marker `''` at `u:k`; but a later load of the key
does NOT yield `null` from the cache — the marker decodes to `null`, the
position takes the miss branch, the fetch function is re-invoked and the
load yields 42 again. -/
theorem primitive_later_load_returns_value :
    toString (fun _ => "x") (.num 42) = "" ∧
    rPipelineSet (fun _ => "x") "u" [(("k" : String), JS.num 42)] ⟨0, id⟩ =
      [⟨"u:k", "", none⟩] ∧
    (fillBatch guardTS jsonParseFrag (fun _ => "x") (fun _ => .ok (.num 42))
      (fun _ => .ok ()) (fun s => if s = "u:k" then some "" else none)
      "u" ["k"] ⟨0, id⟩).response = .ok [.num 42] ∧
    (Except.ok [JS.num 42] : Except String (List JS)) ≠ .ok [.jsNull] :=
  ⟨rfl, rfl, rfl, by decide⟩

/-- C10 (amended): for every non-null, non-object value `v`, the encode
function produces the empty string (the empty-marker payload), decode maps
that marker to `null`, and both the miss write-back pipeline and
`prime`'s `rSetAndGet` record only the marker for the key; however the
stored marker is treated as a cache miss on a later load: the batch
re-invokes the fetch function for the key and resolves to the normalized
freshly fetched value (not to a `null` served from the cache). -/
theorem primitive_value_stored_as_marker (jp : String → Except String JS)
    (jstr : JS → String) (v : JS) (hobj : isObject v = false)
    (_hnn : v ≠ .jsNull) :
    toString jstr v = "" ∧
    parse jp (.str "") = .ok .jsNull ∧
    (∀ (keySpace : String) (k : κ) (opt : Opt κ),
       rPipelineSet jstr keySpace [(k, v)] opt =
         [⟨makeKey keySpace k opt.cacheKeyFn, "",
           if opt.expire ≠ 0 then some opt.expire else none⟩]) ∧
    (∀ (keySpace : String) (k : κ) (opt : Opt κ) (st : Store),
       (rSetAndGet jp jstr keySpace k v opt st none).store
         (makeKey keySpace k opt.cacheKeyFn) = some "") ∧
    (∀ (g : JS → Bool) (jstr₂ : JS → String) (fetch : κ → Except String JS)
       (pexec : List SetCmd → Except String Unit) (st : Store)
       (keySpace : String) (opt : Opt κ) (k : κ) (r : JS),
       st (makeKey keySpace k opt.cacheKeyFn) = some "" → fetch k = .ok r →
       (fillBatch g jp jstr₂ fetch pexec st keySpace [k] opt).response =
         .ok [normalizeMiss r]) := by
  refine ⟨by simp [toString, hobj], rfl, ?_, ?_, ?_⟩
  · intro keySpace k opt
    simp [rPipelineSet, toString, hobj]
  · intro keySpace k opt st
    simp [rSetAndGet, update, toString, hobj]
  · intro g jstr₂ fetch pexec st keySpace opt k r hst hf
    rw [fillBatch_response_eq]
    simp [mGetStore, rawAt, hst, mapParse, parse, seqExcept, runPositions,
      stepPos, missFetch, hf]

/-- Witness for C1: a two-key batch over a store holding `u:a = "1"` with
`b` a miss fetched as 2 fulfils with `[1, 2]`, and each position is its own
key's resolution. -/
theorem fillBatch_ordered_witness :
    (fillBatch guardTS jsonParseFrag (fun _ => "")
      (fun k => if k = "b" then .ok (.num 2) else .error "no") (fun _ => .ok ())
      (fun s => if s = "u:a" then some "1" else none) "u" ["a", "b"]
      ⟨0, id⟩).response = .ok [.num 1, .num 2] ∧
    ([JS.num 1, JS.num 2] : List JS).length = 2 ∧
    Except.ok (JS.num 1) = specResolveKey guardTS jsonParseFrag
      (fun k => if k = "b" then .ok (.num 2) else .error "no")
      (fun s => if s = "u:a" then some "1" else none) "u" ⟨0, id⟩ "a" ∧
    Except.ok (JS.num 2) = specResolveKey guardTS jsonParseFrag
      (fun k => if k = "b" then .ok (.num 2) else .error "no")
      (fun s => if s = "u:a" then some "1" else none) "u" ⟨0, id⟩ "b" := by
  have h := fillBatch_ordered guardTS jsonParseFrag (fun _ => "")
    (fun k => if k = "b" then .ok (.num 2) else .error "no") (fun _ => .ok ())
    (fun s => if s = "u:a" then some "1" else none) "u" ["a", "b"] ⟨0, id⟩
    [.num 1, .num 2] rfl
  refine ⟨rfl, by simp [h.1], ?_, ?_⟩
  · have h0 := h.2 0 (by decide) (by decide)
    simpa using h0
  · have h1 := h.2 1 (by decide) (by decide)
    simpa using h1

/-- Witness for C2: a `LOADING` replica failure falls back to the primary
and parses its replies; a `connection refused` failure propagates
unchanged. -/
theorem rMGet_replica_fallback_witness :
    rMGet jsonParseFrag
      (fun _ => .error "LOADING Redis is loading the dataset in memory")
      (fun ks => .ok (ks.map (fun _ => Raw.nil))) "u" ["k"] ⟨0, id⟩ = .ok [.jsNull] ∧
    rMGet jsonParseFrag (fun _ => .error "connection refused")
      (fun ks => .ok (ks.map (fun _ => Raw.nil))) "u" ["k"] ⟨0, id⟩ =
      .error "connection refused" := by
  constructor
  · have h := (rMGet_replica_fallback jsonParseFrag
      (fun _ => .error "LOADING Redis is loading the dataset in memory")
      (fun ks => .ok (ks.map (fun _ => Raw.nil))) "u" ["k"] ⟨0, id⟩
      "LOADING Redis is loading the dataset in memory" rfl).1 (by decide)
    have h2 := h.2 [Raw.nil] rfl
    exact h2.trans rfl
  · exact ((rMGet_replica_fallback jsonParseFrag (fun _ => .error "connection refused")
      (fun ks => .ok (ks.map (fun _ => Raw.nil))) "u" ["k"] ⟨0, id⟩
      "connection refused" rfl).2 (by decide)).1

/-- Witness for C3: a one-miss batch dispatches exactly the one pipeline
of its write-back list, and the batch still fulfils with the same values
when the pipeline executor fails. -/
theorem fillBatch_single_pipeline_witness :
    (fillBatch guardTS jsonParseFrag (fun _ => "o") (fun _ => .ok (.obj 0))
      (fun _ => .ok ()) (fun _ => none) "u" ["k"] ⟨0, id⟩).pipelines =
      [rPipelineSet (fun _ => "o") "u"
        (fillBatch guardTS jsonParseFrag (fun _ => "o") (fun _ => .ok (.obj 0))
          (fun _ => .ok ()) (fun _ => none) "u" ["k"] ⟨0, id⟩).writeback ⟨0, id⟩] ∧
    (fillBatch guardTS jsonParseFrag (fun _ => "o") (fun _ => .ok (.obj 0))
      (fun _ => .error "redis down") (fun _ => none) "u" ["k"] ⟨0, id⟩).response =
      .ok [.obj 0] := by
  have h := fillBatch_single_pipeline guardTS jsonParseFrag (fun _ => "o")
    (fun _ => .ok (.obj 0)) (fun _ => .ok ()) (fun _ => none) "u" ["k"] ⟨0, id⟩
    [.obj 0] rfl (by decide)
  exact ⟨h.1, (h.2.2 (fun _ => .error "redis down")).1⟩

/-- Witness for C4 (amended): a miss whose fetch resolves to `null` is
returned as `null` and omitted from the write-back list. -/
theorem miss_normalization_writeback_witness :
    (fillBatch guardJS jsonParseFrag (fun _ => "") (fun _ => .ok .jsNull)
      (fun _ => .ok ()) (fun _ => none) "w" ["k"] ⟨0, id⟩).response = .ok [.jsNull] ∧
    (fillBatch guardJS jsonParseFrag (fun _ => "") (fun _ => .ok .jsNull)
      (fun _ => .ok ()) (fun _ => none) "w" ["k"] ⟨0, id⟩).writeback = [] := by
  have h := miss_normalization_writeback jsonParseFrag (fun _ => "") (fun _ => .ok ())
    (fun _ => none) "w" ⟨0, id⟩ "k" (fun _ => .ok .jsNull) .jsNull rfl rfl
  exact h.2.1 rfl

/-- Witness for C6 (amended): a non-empty stored string is JSON-parsed
directly, and a malformed stored payload rejects the batch with the decode
error. -/
theorem parse_decode_spec_witness :
    parse jsonParseFrag (.str "7") = jsonParseFrag "7" ∧
    (fillBatch guardTS jsonParseFrag (fun _ => "") (fun _ => .ok .jsNull)
      (fun _ => .ok ()) (fun s => if s = "u:k" then some "x" else none)
      "u" ["k"] ⟨0, id⟩).response = .error "Unexpected token in JSON: x" := by
  have h := parse_decode_spec (κ := String) jsonParseFrag
  refine ⟨h.2.2.2.1 "7" (by decide), ?_⟩
  exact h.2.2.2.2.2 guardTS (fun _ => "") (fun _ => .ok .jsNull) (fun _ => .ok ())
    (fun s => if s = "u:k" then some "x" else none) "u" ⟨0, id⟩ "k" "x"
    "Unexpected token in JSON: x" (by decide) (by decide) (by decide)

/-- Witness for C7: priming `null` under a healthy replica stores the
empty-marker with its expiry and settles with the decoded stored value. -/
theorem rSetAndGet_read_after_write_witness :
    (rSetAndGet jsonParseFrag (fun _ => "") "u" "k" .jsNull ⟨5, id⟩
      (fun _ => none) none).result = .ok .jsNull ∧
    (rSetAndGet jsonParseFrag (fun _ => "") "u" "k" .jsNull ⟨5, id⟩
      (fun _ => none) none).store (makeKey "u" "k" id) = some "" ∧
    (rSetAndGet jsonParseFrag (fun _ => "") "u" "k" .jsNull ⟨5, id⟩
      (fun _ => none) none).expired = some (makeKey "u" "k" id, 5) := by
  have h := rSetAndGet_read_after_write jsonParseFrag (fun _ => "") "u" "k" .jsNull
    ⟨5, id⟩ (fun _ => none) none (Or.inl rfl)
  exact ⟨h.1.trans (by decide), h.2.1, h.2.2.trans (by decide)⟩

/-- Witness for C8: `loadMany` of falsy keys rejects with the
invalid-argument error; an all-fulfilled batch resolves in order; a batch
with one failing key rejects with exactly that key's error. -/
theorem loadMany_spec_witness :
    loadMany (fun k : String => if k = "bad" then .error "boom" else .ok (.num 1))
      none = .error "keys parameter is required" ∧
    loadMany (fun k : String => if k = "bad" then .error "boom" else .ok (.num 1))
      (some ["a", "b"]) = .ok [.num 1, .num 1] ∧
    loadMany (fun k : String => if k = "bad" then .error "boom" else .ok (.num 1))
      (some (["a"] ++ "bad" :: ["c"])) = .error "boom" := by
  have h := loadMany_spec (fun k : String => if k = "bad" then .error "boom" else .ok (.num 1))
  refine ⟨h.1, ?_, ?_⟩
  · have h2 := h.2.1 ["a", "b"] (fun _ => .num 1) (by decide)
    simpa using h2
  · refine h.2.2.2 ["a"] ["c"] "bad" "boom" ?_ (by decide)
    intro k' hk'
    refine ⟨.num 1, ?_⟩
    simp only [List.mem_singleton] at hk'
    subst hk'
    rfl

/-- Witness for C9: key-spaces `users` and `orders` derive distinct full
keys from the identical application key `42`. -/
theorem makeKey_keyspace_disjoint_witness :
    (("users" : String) ≠ "orders") ∧ makeKey "users" "42" id ≠ makeKey "orders" "42" id :=
  ⟨by decide, makeKey_keyspace_disjoint "users" "orders" id "42" (by decide)⟩

/-- Witness for C10 (amended): the primitive 42 encodes to the
empty-marker, `rSetAndGet` records only the marker, and a later load over
the marker re-invokes the fetch function and resolves to the normalized
fetched value. -/
theorem primitive_value_stored_as_marker_witness :
    toString (fun _ => "") (.num 42) = "" ∧
    (rSetAndGet jsonParseFrag (fun _ => "") "p" "k" (.num 42) ⟨0, id⟩
      (fun _ => none) none).store (makeKey "p" "k" id) = some "" ∧
    (fillBatch guardTS jsonParseFrag (fun _ => "") (fun _ => .ok (.num 5))
      (fun _ => .ok ()) (fun s => if s = "p:k" then some "" else none)
      "p" ["k"] ⟨0, id⟩).response = .ok [normalizeMiss (.num 5)] := by
  have h := primitive_value_stored_as_marker (κ := String) jsonParseFrag (fun _ => "")
    (.num 42) rfl (by decide)
  refine ⟨h.1, ?_, ?_⟩
  · exact h.2.2.2.1 "p" "k" ⟨0, id⟩ (fun _ => none)
  · exact h.2.2.2.2 guardTS (fun _ => "") (fun _ => .ok (.num 5)) (fun _ => .ok ())
      (fun s => if s = "p:k" then some "" else none) "p" ⟨0, id⟩ "k" (.num 5)
      (by decide) rfl

end RedisDL
